import Mathlib

/-!
Shallow embedding of the cargo-hack command-runner core (src/main.rs):
package selection, the per-package execution loop, dev-dependency
suppression with the Restore guard, and cargo binary resolution.
Collaborator modules that are not part of src (cli, manifest, metadata,
package, process, restore, remove_dev_deps) are modelled from the spec
where the claims need them; each such definition says so in its comment.
-/

/-- Modelled from the spec: package Kind tag (package.rs is not under src);
a closed variant, Normal versus SkipAsPrivate (spec section 3). -/
inductive Kind
  | Normal
  | SkipAsPrivate
deriving DecidableEq, Repr

/-- Modelled from the spec: one entry of the metadata package list
(metadata.rs is not under src): the name and the manifest path (spec
section 6); the Kind that selection decides once is carried on the entry,
since the privacy predicate deciding it lives outside src. -/
structure MetaPackage where
  name : String
  manifest_path : String
  kind : Kind
deriving DecidableEq, Repr

/-- Modelled from the spec: the workspace description consumed read-only
(metadata.rs is not under src, spec section 6). -/
structure Metadata where
  packages : List MetaPackage
  workspace_root : String
deriving DecidableEq, Repr

/-- Modelled from the spec: the resolved configuration (cli.rs is not under
src), restricted to the fields the embedded core reads (spec section 6). -/
structure Args where
  subcommand : Option String
  remove_dev_deps : Bool
  no_dev_deps : Bool
  workspace : Bool
  package : List String
  exclude : List String
  color : Option String
deriving DecidableEq, Repr

/-- Modelled from the spec: the current directory's manifest (manifest.rs
is not under src): a derived package name, absent exactly when the manifest
is virtual (spec section 3). -/
structure Manifest where
  packageName : Option String
deriving DecidableEq, Repr

/-- A manifest is virtual when it declares no package of its own. -/
def Manifest.is_virtual (m : Manifest) : Bool := m.packageName.isNone

/-- The declared package name; only read on non-virtual manifests. -/
def Manifest.package_name (m : Manifest) : String := m.packageName.getD ("")

/-- Disk state at the filesystem boundary: an association list from path to
content; the head is the most recent write. -/
abbrev FS : Type := List (String × String)

/-- Content currently on disk at a path. -/
def FS.read (fs : FS) (path : String) : Option String :=
  (List.find? (fun e => e.1 == path) fs).map (fun e => e.2)

/-- Overwrite one path with new content. -/
def FS.write (fs : FS) (path content : String) : FS :=
  (path, content) :: fs

/-- Observable run events: terminal messages, guard activity, manifest
mutation, and subprocess invocations. -/
inductive Event
  | warn (msg : String)
  | info (msg : String)
  | guardOpened (path : String)
  | mutated (path : String)
  | restored (path : String)
  | invoked (cmd : List String)
deriving DecidableEq, Repr

/-- Modelled from the spec: the run-wide counters (package.rs is not under
src): a current index and a total count (spec section 3). -/
structure Progress where
  total : Nat
  count : Nat
deriving DecidableEq, Repr

/-- The zero counters Progress::default() starts from. -/
def Progress.default : Progress := ⟨0, 0⟩

/-- Run state threaded through the orchestrator: the disk, the event trace
and the Progress counters. -/
structure St where
  fs : FS
  events : List Event
  progress : Progress
deriving DecidableEq, Repr

/-- World oracles at the external boundaries: whether a write to a path
succeeds, whether a composed invocation succeeds, the per-package feature
arguments (external policy, spec section 1), and the pure dev-dependency
removal transformation (remove_dev_deps.rs is not under src, spec
section 4.3). -/
structure World where
  writeOk : String → Bool
  execOk : List String → Bool
  featureArgs : String → List String
  remove_dev_deps : String → String

/-- Outcome of a run fragment: success, a propagated user-facing error, or
an assertion failure (a programmer-error panic, spec section 7). -/
inductive RunResult
  | ok
  | err (msg : String)
  | assertFailed (msg : String)
deriving DecidableEq, Repr

/-- Modelled from the spec: process.rs is not under src; an immutable
program plus an argument vector, cheaply duplicated per package (spec
section 3). -/
structure ProcessBuilder where
  program : String
  args : List String
deriving DecidableEq, Repr

/-- Append one argument; the program is untouched. -/
def ProcessBuilder.arg (line : ProcessBuilder) (a : String) : ProcessBuilder :=
  { line with args := line.args ++ [a] }

/-- Modelled from the spec: the base command line seeded from the
configuration; the subcommand, when present, seeds the argument vector
(spec sections 3 and 6). -/
def ProcessBuilder.from_args (binary : String) (args : Args) : ProcessBuilder :=
  ⟨binary, args.subcommand.toList⟩

/-- Modelled from the spec: appends the feature-selection arguments the
external feature policy produces for this package (spec section 4.4); the
program is untouched. -/
def ProcessBuilder.append_features_from_args (line : ProcessBuilder) (world : World) (pkg : String) : ProcessBuilder :=
  { line with args := line.args ++ world.featureArgs pkg }

/-- Modelled from the spec: a selected workspace package (package.rs is not
under src): name, manifest path, the owned Manifest's raw content as loaded
from disk at selection time, and the Kind decided at selection (spec
section 3). -/
structure Package where
  name : String
  manifest_path : String
  manifest : String
  kind : Kind
deriving DecidableEq, Repr

/-- Modelled from the spec: Package construction (package.rs is not under
src): one Package per selected metadata entry, in order; each owns a
Manifest whose raw content is read from disk at selection time (spec
section 3); a missing file is a fatal read error (spec section 7). -/
def Package.from_iter : List MetaPackage → FS → Except String (List Package)
  | [], _ => Except.ok []
  | p :: rest, fs =>
    match fs.read p.manifest_path with
    | none => Except.error (("failed to read manifest file: ") ++ p.manifest_path)
    | some raw =>
      (Package.from_iter rest fs).map
        (fun packages => Package.mk p.name p.manifest_path raw p.kind :: packages)

/-- Modelled from the spec: package::exec (package.rs is not under src):
records the subprocess invocation, advances the Progress index by one per
invocation, and succeeds exactly when the external process does (spec
sections 4.4 and 6); feature-combination looping is outside this spec's
scope (spec section 1). -/
def Package.exec (world : World) (package : Package) (line : ProcessBuilder) (st : St) : St × RunResult :=
  let cmd := line.program :: line.args
  let st' := { st with
    events := st.events ++ [Event.invoked cmd],
    progress := { st.progress with count := st.progress.count + 1 } }
  if world.execOk cmd then (st', RunResult.ok)
  else (st', RunResult.err (("command failed: ") ++ package.name))

/-- Modelled from the spec: restore.rs is not under src. The run-wide
Restore records whether restoration is needed: the non-persisting
suppression flag restores, while the persisting variant keeps the mutation
(spec sections 4.2 and 6). -/
structure Restore where
  needs_restore : Bool
deriving DecidableEq, Repr

/-- Restore::new reads the configuration once per run. -/
def Restore.new (args : Args) : Restore := ⟨args.no_dev_deps⟩

/-- Modelled from the spec: a Restore handle captures the target path and
the original content snapshot at creation (spec section 4.2). -/
structure Handle where
  needs_restore : Bool
  path : String
  original : String
deriving DecidableEq, Repr

/-- Open a handle over one package's original manifest content. -/
def Restore.set_manifest (restore : Restore) (package : Package) : Handle :=
  ⟨restore.needs_restore, package.manifest_path, package.manifest⟩

/-- Modelled from the spec: the single write-back a handle performs, at
explicit finalize or at release; the internal done flag makes the two paths
together write at most once, so each control-flow path of the caller below
reaches this exactly once (spec section 4.2). -/
def Handle.restore (handle : Handle) (st : St) : St :=
  if handle.needs_restore then
    { st with
      fs := st.fs.write handle.path handle.original,
      events := st.events ++ [Event.restored handle.path] }
  else st

/-- The explicit done() finalize on the success path. -/
def Handle.done (handle : Handle) (st : St) : St × RunResult :=
  (handle.restore st, RunResult.ok)

/-- Embeds cargo_binary (src/main.rs): the subprocess binary is the value
of CARGO_HACK_CARGO_SRC when set, else the value of CARGO when set, else
the literal cargo. -/
def cargo_binary (env : String → Option String) : String :=
  (env ("CARGO_HACK_CARGO_SRC")).getD ((env ("CARGO")).getD ("cargo"))

/-- Embeds no_dev_deps (src/main.rs): under either suppression flag,
compute the mutated content, open the Restore handle over the original,
write the mutated content (a failure is reported with the manifest path and
propagates, the handle restoring at release), run the package, and finalize
the handle on success; otherwise run the package directly. -/
def no_dev_deps (world : World) (args : Args) (package : Package) (line : ProcessBuilder) (restore : Restore) (st : St) : St × RunResult :=
  if args.no_dev_deps || args.remove_dev_deps then
    let new := world.remove_dev_deps package.manifest
    let handle := restore.set_manifest package
    let st' := { st with events := st.events ++ [Event.guardOpened package.manifest_path] }
    if world.writeOk package.manifest_path then
      let st'' := { st' with
        fs := st'.fs.write package.manifest_path new,
        events := st'.events ++ [Event.mutated package.manifest_path] }
      match Package.exec world package line st'' with
      | (stX, RunResult.ok) => handle.done stX
      | (stX, r) => (handle.restore stX, r)
    else
      (handle.restore st',
        RunResult.err (("failed to update manifest file: ") ++ package.manifest_path))
  else
    Package.exec world package line st

/-- Embeds exec_on_package (src/main.rs): a SkipAsPrivate package is
reported and skipped with success; otherwise the base line is cloned, the
feature arguments and the manifest-path argument are appended, and
no_dev_deps takes over. -/
def exec_on_package (world : World) (args : Args) (package : Package) (line : ProcessBuilder) (restore : Restore) (st : St) : St × RunResult :=
  match package.kind with
  | Kind.SkipAsPrivate =>
    ({ st with events := st.events ++ [Event.info (("skipped running on private crate ") ++ package.name)] },
      RunResult.ok)
  | Kind.Normal =>
    let line' := line.append_features_from_args world package.name
    let line'' := (line'.arg ("--manifest-path")).arg package.manifest_path
    no_dev_deps world args package line'' restore st

/-- Embeds the try_for_each loop that closes exec_on_workspace
(src/main.rs): packages are visited in order and the first non-success
outcome short-circuits the rest. -/
def runPackages (world : World) (args : Args) (line : ProcessBuilder) (restore : Restore) : List Package → St → St × RunResult
  | [], st => (st, RunResult.ok)
  | package :: rest, st =>
    match exec_on_package world args package line restore st with
    | (st', RunResult.ok) => runPackages world args line restore rest st'
    | (st', r) => (st', r)

/-- Embeds the package-selection block of exec_on_workspace (src/main.rs
lines 84 to 117): the workspace branch warns for each exclude name matching
no package and filters the excluded names out; the explicit-list branch
fails on the first spec matching no package and otherwise filters to the
listed names; otherwise the whole list for a virtual manifest, or the
current package found by name. -/
def selectPackages (args : Args) (current_manifest : Manifest) (metadata : Metadata) : List Event × Except String (List MetaPackage) :=
  if args.workspace then
    ((args.exclude.filter
        (fun spec => !(metadata.packages.any (fun package => package.name == spec)))).map
      (fun spec => Event.warn (("excluded package(s) ") ++ spec ++ (" not found in workspace `") ++ metadata.workspace_root ++ ("`"))),
     Except.ok (metadata.packages.filter (fun package => !(args.exclude.contains package.name))))
  else if !args.package.isEmpty then
    match args.package.find? (fun spec => !(metadata.packages.any (fun package => package.name == spec))) with
    | some spec =>
      ([], Except.error (("package ID specification `") ++ spec ++ ("` matched no packages")))
    | none =>
      ([], Except.ok (metadata.packages.filter (fun package => args.package.contains package.name)))
  else if current_manifest.is_virtual then
    ([], Except.ok metadata.packages)
  else
    ([], Except.ok (metadata.packages.find? (fun package => package.name == current_manifest.package_name)).toList)

/-- Embeds exec_on_workspace (src/main.rs): assert that a subcommand or the
persisting suppression flag is present, build the Restore and the base line
(with the color argument when configured), select the packages, construct
them with Progress totalled to the selected set's length, and run them
fail-fast. -/
def exec_on_workspace (world : World) (env : String → Option String) (args : Args) (current_manifest : Manifest) (metadata : Metadata) (st : St) : St × RunResult :=
  if args.subcommand.isSome || args.remove_dev_deps then
    let restore := Restore.new args
    let line := ProcessBuilder.from_args (cargo_binary env) args
    let line' := match args.color with
      | some color => (line.arg ("--color")).arg color
      | none => line
    let sel := selectPackages args current_manifest metadata
    let st' := { st with events := st.events ++ sel.1, progress := Progress.default }
    match sel.2 with
    | Except.error e => (st', RunResult.err e)
    | Except.ok pkgs =>
      match Package.from_iter pkgs st'.fs with
      | Except.error e => (st', RunResult.err e)
      | Except.ok packages =>
        runPackages world args line' restore packages
          { st' with progress := ⟨packages.length, 0⟩ }
  else
    (st, RunResult.assertFailed ("no subcommand or valid flag specified"))

/-- Number of occurrences of one event in a trace. -/
def countEv (events : List Event) (e : Event) : Nat :=
  events.countP (fun x => decide (x = e))

/-- Bool test for a subprocess-invocation event. -/
def isInvoked : Event → Bool
  | Event.invoked _ => true
  | _ => false

/-- Number of subprocess invocations recorded in a trace. -/
def countInvoked (events : List Event) : Nat := events.countP isInvoked

theorem countEv_append (l1 l2 : List Event) (e : Event) :
    countEv (l1 ++ l2) e = countEv l1 e + countEv l2 e := by
  simp [countEv, List.countP_append]

theorem countInvoked_append (l1 l2 : List Event) :
    countInvoked (l1 ++ l2) = countInvoked l1 + countInvoked l2 := by
  simp [countInvoked, List.countP_append]

/-- Reading after a write: the latest write wins and other paths are
unchanged. -/
theorem FS.read_write (fs : FS) (p c q : String) :
    (fs.write p c).read q = if q = p then some c else fs.read q := by
  by_cases h : q = p
  · subst h
    simp [FS.read, FS.write]
  · simp only [FS.read, FS.write, List.find?]
    have : ((p, c).1 == q) = false := by
      simp [Ne.symm h]
    simp [this, h, FS.read]

/-- Closed form of the modelled package::exec. -/
theorem Package.exec_spec (world : World) (package : Package) (line : ProcessBuilder) (st : St) :
    Package.exec world package line st =
      ({ st with
          events := st.events ++ [Event.invoked (line.program :: line.args)],
          progress := { st.progress with count := st.progress.count + 1 } },
        if world.execOk (line.program :: line.args) then RunResult.ok
        else RunResult.err (("command failed: ") ++ package.name)) := by
  by_cases h : world.execOk (line.program :: line.args) <;> simp [Package.exec, h]

/-- The skip branch of exec_on_package. -/
theorem exec_on_package_skip (world : World) (args : Args) (package : Package) (line : ProcessBuilder) (restore : Restore) (st : St)
    (hk : package.kind = Kind.SkipAsPrivate) :
    exec_on_package world args package line restore st =
      ({ st with events := st.events ++ [Event.info (("skipped running on private crate ") ++ package.name)] },
        RunResult.ok) := by
  simp [exec_on_package, hk]

/-- The normal branch of exec_on_package defers to no_dev_deps with the
derived command line. -/
theorem exec_on_package_normal (world : World) (args : Args) (package : Package) (line : ProcessBuilder) (restore : Restore) (st : St)
    (hk : package.kind = Kind.Normal) :
    exec_on_package world args package line restore st =
      no_dev_deps world args package
        (((line.append_features_from_args world package.name).arg ("--manifest-path")).arg package.manifest_path)
        restore st := by
  simp [exec_on_package, hk]

/-- no_dev_deps with both suppression flags off runs the package directly. -/
theorem no_dev_deps_off (world : World) (args : Args) (package : Package) (line : ProcessBuilder) (restore : Restore) (st : St)
    (hs : (args.no_dev_deps || args.remove_dev_deps) = false) :
    no_dev_deps world args package line restore st = Package.exec world package line st := by
  simp [no_dev_deps, hs]

/-- no_dev_deps when the mutated-content write fails: the handle opened over
the original releases, and the error names the manifest path. -/
theorem no_dev_deps_wfail (world : World) (args : Args) (package : Package) (line : ProcessBuilder) (restore : Restore) (st : St)
    (hs : (args.no_dev_deps || args.remove_dev_deps) = true)
    (hw : world.writeOk package.manifest_path = false) :
    no_dev_deps world args package line restore st =
      ((restore.set_manifest package).restore
          { st with events := st.events ++ [Event.guardOpened package.manifest_path] },
        RunResult.err (("failed to update manifest file: ") ++ package.manifest_path)) := by
  simp [no_dev_deps, hs, hw]

/-- no_dev_deps when the mutated-content write succeeds: mutate, invoke,
and release the handle whichever way the invocation went; only the returned
result differs. -/
theorem no_dev_deps_write (world : World) (args : Args) (package : Package) (line : ProcessBuilder) (restore : Restore) (st : St)
    (hs : (args.no_dev_deps || args.remove_dev_deps) = true)
    (hw : world.writeOk package.manifest_path = true) :
    no_dev_deps world args package line restore st =
      ((restore.set_manifest package).restore
          { st with
            fs := st.fs.write package.manifest_path (world.remove_dev_deps package.manifest),
            events := st.events ++
              [Event.guardOpened package.manifest_path,
               Event.mutated package.manifest_path,
               Event.invoked (line.program :: line.args)],
            progress := { st.progress with count := st.progress.count + 1 } },
        if world.execOk (line.program :: line.args) then RunResult.ok
        else RunResult.err (("command failed: ") ++ package.name)) := by
  by_cases he : world.execOk (line.program :: line.args) <;>
    simp [no_dev_deps, hs, hw, Package.exec_spec, he, Handle.done]

/-- The per-package step only appends to the event trace. -/
theorem exec_on_package_events (world : World) (args : Args) (package : Package) (line : ProcessBuilder) (restore : Restore) (st : St) :
    ∃ tail, (exec_on_package world args package line restore st).1.events = st.events ++ tail := by
  cases hk : package.kind
  case SkipAsPrivate =>
    rw [exec_on_package_skip _ _ _ _ _ _ hk]
    exact ⟨_, rfl⟩
  case Normal =>
    rw [exec_on_package_normal _ _ _ _ _ _ hk]
    cases hs : (args.no_dev_deps || args.remove_dev_deps)
    · rw [no_dev_deps_off _ _ _ _ _ _ hs, Package.exec_spec]
      exact ⟨_, rfl⟩
    · cases hw : world.writeOk package.manifest_path
      · rw [no_dev_deps_wfail _ _ _ _ _ _ hs hw]
        cases hr : restore.needs_restore <;>
          simp [Handle.restore, Restore.set_manifest, hr]
      · rw [no_dev_deps_write _ _ _ _ _ _ hs hw]
        cases hr : restore.needs_restore <;>
          simp [Handle.restore, Restore.set_manifest, hr]

/-- Under the restoring suppression flag, one per-package step leaves every
path of the disk reading as before, provided the package's captured
manifest matches the disk. -/
theorem exec_on_package_fs (world : World) (args : Args) (package : Package) (line : ProcessBuilder) (restore : Restore) (st : St)
    (hnd : args.no_dev_deps = true) (hr : restore.needs_restore = true)
    (hc : st.fs.read package.manifest_path = some package.manifest) :
    ∀ q, (exec_on_package world args package line restore st).1.fs.read q = st.fs.read q := by
  intro q
  cases hk : package.kind
  case SkipAsPrivate =>
    rw [exec_on_package_skip _ _ _ _ _ _ hk]
  case Normal =>
    rw [exec_on_package_normal _ _ _ _ _ _ hk]
    have hs : (args.no_dev_deps || args.remove_dev_deps) = true := by simp [hnd]
    cases hw : world.writeOk package.manifest_path
    · rw [no_dev_deps_wfail _ _ _ _ _ _ hs hw]
      simp only [Handle.restore, Restore.set_manifest, hr, if_true]
      rw [FS.read_write]
      by_cases hq : q = package.manifest_path
      · subst hq
        simp [hc]
      · simp [hq]
    · rw [no_dev_deps_write _ _ _ _ _ _ hs hw]
      simp only [Handle.restore, Restore.set_manifest, hr, if_true]
      rw [FS.read_write]
      by_cases hq : q = package.manifest_path
      · subst hq
        simp [hc]
      · rw [if_neg hq, FS.read_write, if_neg hq]

/-- The Progress index advances by exactly the number of invocation events
the step adds. -/
theorem exec_on_package_count (world : World) (args : Args) (package : Package) (line : ProcessBuilder) (restore : Restore) (st : St) :
    (exec_on_package world args package line restore st).1.progress.count + countInvoked st.events
      = st.progress.count + countInvoked (exec_on_package world args package line restore st).1.events := by
  cases hk : package.kind
  case SkipAsPrivate =>
    rw [exec_on_package_skip _ _ _ _ _ _ hk]
    simp [countInvoked_append, countInvoked, isInvoked]
  case Normal =>
    rw [exec_on_package_normal _ _ _ _ _ _ hk]
    cases hs : (args.no_dev_deps || args.remove_dev_deps)
    · rw [no_dev_deps_off _ _ _ _ _ _ hs, Package.exec_spec]
      simp [countInvoked_append, countInvoked, isInvoked]
      omega
    · cases hw : world.writeOk package.manifest_path
      · rw [no_dev_deps_wfail _ _ _ _ _ _ hs hw]
        cases hr : restore.needs_restore <;>
          simp [Handle.restore, Restore.set_manifest, hr, countInvoked_append, countInvoked, isInvoked]
      · rw [no_dev_deps_write _ _ _ _ _ _ hs hw]
        cases hr : restore.needs_restore <;>
          simp [Handle.restore, Restore.set_manifest, hr, countInvoked_append, countInvoked, isInvoked] <;>
          omega

/-- No per-package step changes the Progress total. -/
theorem exec_on_package_total (world : World) (args : Args) (package : Package) (line : ProcessBuilder) (restore : Restore) (st : St) :
    (exec_on_package world args package line restore st).1.progress.total = st.progress.total := by
  cases hk : package.kind
  case SkipAsPrivate =>
    rw [exec_on_package_skip _ _ _ _ _ _ hk]
  case Normal =>
    rw [exec_on_package_normal _ _ _ _ _ _ hk]
    cases hs : (args.no_dev_deps || args.remove_dev_deps)
    · rw [no_dev_deps_off _ _ _ _ _ _ hs, Package.exec_spec]
    · cases hw : world.writeOk package.manifest_path
      · rw [no_dev_deps_wfail _ _ _ _ _ _ hs hw]
        cases hr : restore.needs_restore <;>
          simp [Handle.restore, Restore.set_manifest, hr]
      · rw [no_dev_deps_write _ _ _ _ _ _ hs hw]
        cases hr : restore.needs_restore <;>
          simp [Handle.restore, Restore.set_manifest, hr]

/-- Under the restoring suppression flag, one per-package step adds exactly
as many release write-backs as guard openings, at every path. -/
theorem exec_on_package_guard (world : World) (args : Args) (package : Package) (line : ProcessBuilder) (restore : Restore) (st : St)
    (hnd : args.no_dev_deps = true) (hr : restore.needs_restore = true) (q : String) :
    countEv (exec_on_package world args package line restore st).1.events (Event.restored q)
        + countEv st.events (Event.guardOpened q)
      = countEv st.events (Event.restored q)
        + countEv (exec_on_package world args package line restore st).1.events (Event.guardOpened q) := by
  cases hk : package.kind
  case SkipAsPrivate =>
    rw [exec_on_package_skip _ _ _ _ _ _ hk]
    simp [countEv_append, countEv, List.countP_cons]
  case Normal =>
    rw [exec_on_package_normal _ _ _ _ _ _ hk]
    have hs : (args.no_dev_deps || args.remove_dev_deps) = true := by simp [hnd]
    cases hw : world.writeOk package.manifest_path
    · rw [no_dev_deps_wfail _ _ _ _ _ _ hs hw]
      simp only [Handle.restore, Restore.set_manifest, hr, if_true]
      by_cases hq : q = package.manifest_path <;>
        simp [hq, countEv_append, countEv, List.countP_cons] <;> omega
    · rw [no_dev_deps_write _ _ _ _ _ _ hs hw]
      simp only [Handle.restore, Restore.set_manifest, hr, if_true]
      by_cases hq : q = package.manifest_path <;>
        simp [hq, countEv_append, countEv, List.countP_cons] <;> omega

/-- Every invocation event a per-package step adds runs the base line's
program. -/
theorem exec_on_package_invoked (world : World) (args : Args) (package : Package) (line : ProcessBuilder) (restore : Restore) (st : St) (cmd : List String)
    (h : Event.invoked cmd ∈ (exec_on_package world args package line restore st).1.events) :
    Event.invoked cmd ∈ st.events ∨ cmd.head? = some line.program := by
  cases hk : package.kind
  case SkipAsPrivate =>
    rw [exec_on_package_skip _ _ _ _ _ _ hk] at h
    simp at h
    exact Or.inl h
  case Normal =>
    rw [exec_on_package_normal _ _ _ _ _ _ hk] at h
    cases hs : (args.no_dev_deps || args.remove_dev_deps)
    case false =>
      rw [no_dev_deps_off _ _ _ _ _ _ hs, Package.exec_spec] at h
      simp at h
      rcases h with h | h
      · exact Or.inl h
      · right
        rw [h]
        rfl
    case true =>
      cases hw : world.writeOk package.manifest_path
      case false =>
        rw [no_dev_deps_wfail _ _ _ _ _ _ hs hw] at h
        cases hr : restore.needs_restore <;>
          simp [Handle.restore, Restore.set_manifest, hr] at h <;>
          exact Or.inl h
      case true =>
        rw [no_dev_deps_write _ _ _ _ _ _ hs hw] at h
        cases hr : restore.needs_restore <;>
          simp [Handle.restore, Restore.set_manifest, hr] at h <;>
          rcases h with h | h
        · exact Or.inl h
        · right
          rw [h]
          rfl
        · exact Or.inl h
        · right
          rw [h]
          rfl

/-- A per-package step never reports an assertion failure. -/
theorem exec_on_package_no_assert (world : World) (args : Args) (package : Package) (line : ProcessBuilder) (restore : Restore) (st : St) (m : String) :
    (exec_on_package world args package line restore st).2 ≠ RunResult.assertFailed m := by
  cases hk : package.kind
  case SkipAsPrivate =>
    rw [exec_on_package_skip _ _ _ _ _ _ hk]
    simp
  case Normal =>
    rw [exec_on_package_normal _ _ _ _ _ _ hk]
    cases hs : (args.no_dev_deps || args.remove_dev_deps)
    · rw [no_dev_deps_off _ _ _ _ _ _ hs, Package.exec_spec]
      dsimp only
      split <;> simp
    · cases hw : world.writeOk package.manifest_path
      · rw [no_dev_deps_wfail _ _ _ _ _ _ hs hw]
        simp
      · rw [no_dev_deps_write _ _ _ _ _ _ hs hw]
        dsimp only
        split <;> simp

/-- The whole loop only appends to the event trace. -/
theorem runPackages_events (world : World) (args : Args) (line : ProcessBuilder) (restore : Restore) (packages : List Package) : ∀ st : St,
    ∃ tail, (runPackages world args line restore packages st).1.events = st.events ++ tail := by
  induction packages with
  | nil =>
    intro st
    exact ⟨[], by simp [runPackages]⟩
  | cons package rest ih =>
    intro st
    rw [runPackages]
    rcases hstep : exec_on_package world args package line restore st with ⟨st', r⟩
    obtain ⟨t1, ht1⟩ := exec_on_package_events world args package line restore st
    rw [hstep] at ht1
    cases r
    case ok =>
      dsimp only
      obtain ⟨t2, ht2⟩ := ih st'
      exact ⟨t1 ++ t2, by rw [ht2, ht1, List.append_assoc]⟩
    case err m =>
      exact ⟨t1, ht1⟩
    case assertFailed m =>
      exact ⟨t1, ht1⟩

/-- Under the restoring suppression flag the loop leaves the disk reading
as it did before, provided every visited package's captured manifest
matches the disk. -/
theorem runPackages_fs (world : World) (args : Args) (line : ProcessBuilder) (restore : Restore)
    (hnd : args.no_dev_deps = true) (hr : restore.needs_restore = true) (packages : List Package) : ∀ st : St,
    (∀ p ∈ packages, st.fs.read p.manifest_path = some p.manifest) →
    ∀ q, (runPackages world args line restore packages st).1.fs.read q = st.fs.read q := by
  induction packages with
  | nil =>
    intro st _ q
    simp [runPackages]
  | cons package rest ih =>
    intro st hall q
    rw [runPackages]
    rcases hstep : exec_on_package world args package line restore st with ⟨st', r⟩
    have hfs : ∀ q', st'.fs.read q' = st.fs.read q' := by
      intro q'
      have h := exec_on_package_fs world args package line restore st hnd hr
        (hall package (List.mem_cons_self _ _)) q'
      rwa [hstep] at h
    cases r
    case ok =>
      dsimp only
      have hall' : ∀ p ∈ rest, st'.fs.read p.manifest_path = some p.manifest := by
        intro p hp
        rw [hfs]
        exact hall p (List.mem_cons_of_mem _ hp)
      rw [ih st' hall' q, hfs q]
    case err m =>
      exact hfs q
    case assertFailed m =>
      exact hfs q

/-- Over the whole loop, the Progress index advances by exactly the number
of invocation events added. -/
theorem runPackages_count (world : World) (args : Args) (line : ProcessBuilder) (restore : Restore) (packages : List Package) : ∀ st : St,
    (runPackages world args line restore packages st).1.progress.count + countInvoked st.events
      = st.progress.count + countInvoked (runPackages world args line restore packages st).1.events := by
  induction packages with
  | nil =>
    intro st
    simp [runPackages]
  | cons package rest ih =>
    intro st
    rw [runPackages]
    rcases hstep : exec_on_package world args package line restore st with ⟨st', r⟩
    have hc := exec_on_package_count world args package line restore st
    rw [hstep] at hc
    cases r
    case ok =>
      dsimp only
      dsimp only at hc
      have := ih st'
      omega
    case err m =>
      exact hc
    case assertFailed m =>
      exact hc

/-- The loop never changes the Progress total. -/
theorem runPackages_total (world : World) (args : Args) (line : ProcessBuilder) (restore : Restore) (packages : List Package) : ∀ st : St,
    (runPackages world args line restore packages st).1.progress.total = st.progress.total := by
  induction packages with
  | nil =>
    intro st
    simp [runPackages]
  | cons package rest ih =>
    intro st
    rw [runPackages]
    rcases hstep : exec_on_package world args package line restore st with ⟨st', r⟩
    have ht := exec_on_package_total world args package line restore st
    rw [hstep] at ht
    cases r
    case ok =>
      dsimp only
      rw [ih st']
      exact ht
    case err m =>
      exact ht
    case assertFailed m =>
      exact ht

/-- Under the restoring suppression flag the loop adds exactly as many
release write-backs as guard openings, at every path. -/
theorem runPackages_guard (world : World) (args : Args) (line : ProcessBuilder) (restore : Restore)
    (hnd : args.no_dev_deps = true) (hr : restore.needs_restore = true) (packages : List Package) : ∀ (st : St) (q : String),
    countEv (runPackages world args line restore packages st).1.events (Event.restored q)
        + countEv st.events (Event.guardOpened q)
      = countEv st.events (Event.restored q)
        + countEv (runPackages world args line restore packages st).1.events (Event.guardOpened q) := by
  induction packages with
  | nil =>
    intro st q
    simp [runPackages]
  | cons package rest ih =>
    intro st q
    rw [runPackages]
    rcases hstep : exec_on_package world args package line restore st with ⟨st', r⟩
    have hg := exec_on_package_guard world args package line restore st hnd hr q
    rw [hstep] at hg
    cases r
    case ok =>
      dsimp only
      dsimp only at hg
      have := ih st' q
      omega
    case err m =>
      exact hg
    case assertFailed m =>
      exact hg

/-- Every invocation event the loop adds runs the base line's program. -/
theorem runPackages_invoked (world : World) (args : Args) (line : ProcessBuilder) (restore : Restore) (packages : List Package) : ∀ (st : St) (cmd : List String),
    Event.invoked cmd ∈ (runPackages world args line restore packages st).1.events →
    Event.invoked cmd ∈ st.events ∨ cmd.head? = some line.program := by
  induction packages with
  | nil =>
    intro st cmd h
    simp [runPackages] at h
    exact Or.inl h
  | cons package rest ih =>
    intro st cmd h
    rw [runPackages] at h
    rcases hstep : exec_on_package world args package line restore st with ⟨st', r⟩
    rw [hstep] at h
    have hone : Event.invoked cmd ∈ st'.events → Event.invoked cmd ∈ st.events ∨ cmd.head? = some line.program := by
      intro hmem
      have h2 := exec_on_package_invoked world args package line restore st cmd
      rw [hstep] at h2
      exact h2 hmem
    cases r
    case ok =>
      dsimp only at h
      rcases ih st' cmd h with h' | h'
      · exact hone h'
      · exact Or.inr h'
    case err m =>
      exact hone h
    case assertFailed m =>
      exact hone h

/-- The loop never reports an assertion failure. -/
theorem runPackages_no_assert (world : World) (args : Args) (line : ProcessBuilder) (restore : Restore) (packages : List Package) : ∀ (st : St) (m : String),
    (runPackages world args line restore packages st).2 ≠ RunResult.assertFailed m := by
  induction packages with
  | nil =>
    intro st m
    simp [runPackages]
  | cons package rest ih =>
    intro st m
    rw [runPackages]
    rcases hstep : exec_on_package world args package line restore st with ⟨st', r⟩
    cases r
    case ok =>
      dsimp only
      exact ih st' m
    case err m' =>
      simp
    case assertFailed m' =>
      have h := exec_on_package_no_assert world args package line restore st m'
      rw [hstep] at h
      exact absurd rfl h

/-- Splitting the loop at any point: the suffix only runs if the prefix
fully succeeded. -/
theorem runPackages_append (world : World) (args : Args) (line : ProcessBuilder) (restore : Restore) (l1 l2 : List Package) : ∀ st : St,
    runPackages world args line restore (l1 ++ l2) st =
      match runPackages world args line restore l1 st with
      | (st', RunResult.ok) => runPackages world args line restore l2 st'
      | (st', r) => (st', r) := by
  induction l1 with
  | nil =>
    intro st
    simp [runPackages]
  | cons package rest ih =>
    intro st
    rw [List.cons_append, runPackages, runPackages]
    rcases hstep : exec_on_package world args package line restore st with ⟨st', r⟩
    cases r
    case ok =>
      dsimp only
      exact ih st'
    case err m =>
      rfl
    case assertFailed m =>
      rfl

/-- Constructed packages carry exactly the manifest content on disk at
selection time. -/
theorem from_iter_read (pkgs : List MetaPackage) (fs : FS) (packages : List Package)
    (h : Package.from_iter pkgs fs = Except.ok packages) :
    ∀ p ∈ packages, fs.read p.manifest_path = some p.manifest := by
  induction pkgs generalizing packages with
  | nil =>
    simp [Package.from_iter] at h
    subst h
    simp
  | cons q rest ih =>
    rw [Package.from_iter] at h
    cases hread : fs.read q.manifest_path with
    | none =>
      rw [hread] at h
      cases h
    | some raw =>
      rw [hread] at h
      cases hrec : Package.from_iter rest fs with
      | error e =>
        rw [hrec] at h
        cases h
      | ok ps =>
        rw [hrec] at h
        simp [Except.map] at h
        intro p hp
        rw [← h] at hp
        rcases List.mem_cons.mp hp with h' | h'
        · subst h'
          simpa using hread
        · exact ih ps hrec p h'

/-- Unfolding of exec_on_workspace once its assertion passes. -/
theorem exec_on_workspace_run (world : World) (env : String → Option String) (args : Args) (cm : Manifest) (md : Metadata) (st : St)
    (ha : (args.subcommand.isSome || args.remove_dev_deps) = true) :
    exec_on_workspace world env args cm md st =
      (match (selectPackages args cm md).2 with
       | Except.error e =>
         ({ st with events := st.events ++ (selectPackages args cm md).1, progress := Progress.default }, RunResult.err e)
       | Except.ok pkgs =>
         match Package.from_iter pkgs st.fs with
         | Except.error e =>
           ({ st with events := st.events ++ (selectPackages args cm md).1, progress := Progress.default }, RunResult.err e)
         | Except.ok packages =>
           runPackages world args
             (match args.color with
              | some color => ((ProcessBuilder.from_args (cargo_binary env) args).arg ("--color")).arg color
              | none => ProcessBuilder.from_args (cargo_binary env) args)
             (Restore.new args) packages
             { st with events := st.events ++ (selectPackages args cm md).1, progress := ⟨packages.length, 0⟩ }) := by
  rw [exec_on_workspace]
  simp only [ha, if_true]

/-- Selection warnings never contain an invocation event. -/
theorem selectPackages_no_invoked (args : Args) (cm : Manifest) (md : Metadata) (cmd : List String) :
    Event.invoked cmd ∉ (selectPackages args cm md).1 := by
  rw [selectPackages]
  split
  · simp
  · split
    · split <;> simp
    · split <;> simp

/-- C9: reaching the execution path with neither a subcommand nor the
persisting dev-dependency removal flag set fails the assertion at the top
of exec_on_workspace (a programmer-error panic, never a user-facing
error); whenever a subcommand or that flag is present the assertion
passes, and no assertion failure can be reported by the run. -/
theorem C9_assertion (world : World) (env : String → Option String) (args : Args) (cm : Manifest) (md : Metadata) (st : St) :
    (args.subcommand.isSome = false ∧ args.remove_dev_deps = false →
      exec_on_workspace world env args cm md st
        = (st, RunResult.assertFailed ("no subcommand or valid flag specified")))
    ∧ ((args.subcommand.isSome || args.remove_dev_deps) = true →
      ∀ m, (exec_on_workspace world env args cm md st).2 ≠ RunResult.assertFailed m) := by
  constructor
  · rintro ⟨h1, h2⟩
    rw [exec_on_workspace]
    simp [h1, h2]
  · intro ha m
    rw [exec_on_workspace_run world env args cm md st ha]
    cases hsel : (selectPackages args cm md).2 with
    | error e => simp
    | ok pkgs =>
      cases hfi : Package.from_iter pkgs st.fs with
      | error e => simp [hfi]
      | ok packages =>
        simp only [hfi]
        exact runPackages_no_assert world args _ (Restore.new args) packages _ m

/-- Witness for C9 at concrete inputs: neither flag set panics the
assertion; a subcommand present never yields an assertion failure. -/
theorem C9_assertion_witness :
    (exec_on_workspace ⟨fun _ => true, fun _ => true, fun _ => [], fun s => s⟩ (fun _ => none)
        ⟨none, false, false, false, [], [], none⟩ ⟨some ("a")⟩ ⟨[], ("r")⟩ ⟨[], [], ⟨0, 0⟩⟩
      = (⟨[], [], ⟨0, 0⟩⟩, RunResult.assertFailed ("no subcommand or valid flag specified")))
    ∧ (∀ m, (exec_on_workspace ⟨fun _ => true, fun _ => true, fun _ => [], fun s => s⟩ (fun _ => none)
        ⟨some ("check"), false, false, false, [], [], none⟩ ⟨some ("a")⟩ ⟨[], ("r")⟩ ⟨[], [], ⟨0, 0⟩⟩).2
      ≠ RunResult.assertFailed m) :=
  ⟨(C9_assertion _ _ _ _ _ _).1 ⟨rfl, rfl⟩, (C9_assertion _ _ _ _ _ _).2 rfl⟩

/-- C10: the subprocess binary is resolved from the environment with fixed
precedence (CARGO_HACK_CARGO_SRC, then CARGO, then the literal cargo), and
every subprocess invocation of a run executes exactly that binary. -/
theorem C10_cargo_binary (world : World) (env : String → Option String) (args : Args) (cm : Manifest) (md : Metadata) (fs : FS) (pr : Progress) :
    (∀ v, env ("CARGO_HACK_CARGO_SRC") = some v → cargo_binary env = v)
    ∧ (env ("CARGO_HACK_CARGO_SRC") = none →
        ∀ v, env ("CARGO") = some v → cargo_binary env = v)
    ∧ (env ("CARGO_HACK_CARGO_SRC") = none → env ("CARGO") = none →
        cargo_binary env = ("cargo"))
    ∧ (∀ cmd, Event.invoked cmd ∈ (exec_on_workspace world env args cm md ⟨fs, [], pr⟩).1.events →
        cmd.head? = some (cargo_binary env)) := by
  refine ⟨?_, ?_, ?_, ?_⟩
  · intro v hv
    simp [cargo_binary, hv]
  · intro h1 v hv
    simp [cargo_binary, h1, hv]
  · intro h1 h2
    simp [cargo_binary, h1, h2]
  · intro cmd h
    by_cases ha : (args.subcommand.isSome || args.remove_dev_deps) = true
    · rw [exec_on_workspace_run world env args cm md _ ha] at h
      dsimp only at h
      cases hsel : (selectPackages args cm md).2 with
      | error e =>
        simp only [hsel] at h
        simp at h
        exact absurd h (selectPackages_no_invoked args cm md cmd)
      | ok pkgs =>
        simp only [hsel] at h
        cases hfi : Package.from_iter pkgs fs with
        | error e =>
          simp only [hfi] at h
          simp at h
          exact absurd h (selectPackages_no_invoked args cm md cmd)
        | ok packages =>
          simp only [hfi] at h
          have h2 := runPackages_invoked world args _ (Restore.new args) packages _ cmd h
          rcases h2 with h' | h'
          · simp at h'
            exact absurd h' (selectPackages_no_invoked args cm md cmd)
          · cases hc : args.color with
            | some c =>
              rw [hc] at h'
              exact h'
            | none =>
              rw [hc] at h'
              exact h'
    · rw [Bool.not_eq_true] at ha
      rw [exec_on_workspace] at h
      simp [ha] at h

/-- Witness for C10 at concrete inputs. -/
theorem C10_cargo_binary_witness :
    ((fun s => if s = ("CARGO") then some ("mycargo") else none) ("CARGO_HACK_CARGO_SRC") = none)
    ∧ (∀ v, (fun s => if s = ("CARGO") then some ("mycargo") else none) ("CARGO") = some v →
        cargo_binary (fun s => if s = ("CARGO") then some ("mycargo") else none) = v) :=
  ⟨by decide,
   (C10_cargo_binary ⟨fun _ => true, fun _ => true, fun _ => [], fun s => s⟩
      (fun s => if s = ("CARGO") then some ("mycargo") else none)
      ⟨some ("check"), false, false, false, [], [], none⟩ ⟨some ("a")⟩ ⟨[], ("r")⟩ [] ⟨0, 0⟩).2.1 (by decide)⟩

/-- Selection emits only warnings. -/
theorem selectPackages_warn_only (args : Args) (cm : Manifest) (md : Metadata) :
    ∀ e ∈ (selectPackages args cm md).1, ∃ m, e = Event.warn m := by
  intro e he
  rw [selectPackages] at he
  split at he
  · simp [List.mem_map] at he
    obtain ⟨spec, _, rfl⟩ := he
    exact ⟨_, rfl⟩
  · split at he
    · split at he <;> simp at he
    · split at he <;> simp at he

/-- Selection warnings contain no guard or invocation bookkeeping. -/
theorem selectPackages_countEv (args : Args) (cm : Manifest) (md : Metadata) (q : String) :
    countEv (selectPackages args cm md).1 (Event.restored q) = 0
    ∧ countEv (selectPackages args cm md).1 (Event.guardOpened q) = 0
    ∧ countInvoked (selectPackages args cm md).1 = 0 := by
  refine ⟨?_, ?_, ?_⟩
  · rw [countEv, List.countP_eq_zero]
    intro e he
    obtain ⟨m, rfl⟩ := selectPackages_warn_only args cm md e he
    simp
  · rw [countEv, List.countP_eq_zero]
    intro e he
    obtain ⟨m, rfl⟩ := selectPackages_warn_only args cm md e he
    simp
  · rw [countInvoked, List.countP_eq_zero]
    intro e he
    obtain ⟨m, rfl⟩ := selectPackages_warn_only args cm md e he
    simp [isInvoked]

/-- C4: with the workspace flag off and a non-empty explicit package list,
a listed name matching no workspace package aborts the run with a fatal
error naming the first such spec, before any event is emitted, any
subprocess is invoked or the disk is touched; with every listed name
matched, the selected set is exactly the workspace packages whose name
appears in the list. -/
theorem C4_explicit_list (world : World) (env : String → Option String) (args : Args) (cm : Manifest) (md : Metadata) (fs : FS) (pr : Progress)
    (hw : args.workspace = false) (hne : args.package ≠ [])
    (ha : (args.subcommand.isSome || args.remove_dev_deps) = true) :
    (∀ spec, args.package.find? (fun s => !(md.packages.any (fun p => p.name == s))) = some spec →
      exec_on_workspace world env args cm md ⟨fs, [], pr⟩
        = (⟨fs, [], Progress.default⟩,
           RunResult.err (("package ID specification `") ++ spec ++ ("` matched no packages"))))
    ∧ (args.package.find? (fun s => !(md.packages.any (fun p => p.name == s))) = none →
      (selectPackages args cm md).2
        = Except.ok (md.packages.filter (fun p => args.package.contains p.name))) := by
  obtain ⟨a, as, hpa⟩ := List.exists_cons_of_ne_nil hne
  constructor
  · intro spec hfind
    have hsel : selectPackages args cm md
        = ([], Except.error (("package ID specification `") ++ spec ++ ("` matched no packages"))) := by
      rw [hpa] at hfind
      rw [selectPackages]
      simp [hw, hpa, hfind]
    rw [exec_on_workspace_run _ _ _ _ _ _ ha, hsel]
    simp
  · intro hfind
    rw [hpa] at hfind
    rw [selectPackages]
    simp [hw, hpa, hfind]

/-- Witness for C4 at concrete inputs: the list names a package absent
from the workspace, so the run aborts with the fatal selection error. -/
theorem C4_explicit_list_witness :
    (([("nope")] : List String).find? (fun s => !(([⟨("a"), ("a/C"), Kind.Normal⟩] : List MetaPackage).any (fun p => p.name == s))) = some ("nope"))
    ∧ exec_on_workspace ⟨fun _ => true, fun _ => true, fun _ => [], fun s => s⟩ (fun _ => none)
        ⟨some ("check"), false, false, false, [("nope")], [], none⟩ ⟨some ("a")⟩
        ⟨[⟨("a"), ("a/C"), Kind.Normal⟩], ("r")⟩ ⟨[(("a/C"), ("m"))], [], ⟨0, 0⟩⟩
      = (⟨[(("a/C"), ("m"))], [], Progress.default⟩,
         RunResult.err (("package ID specification `") ++ ("nope") ++ ("` matched no packages"))) :=
  ⟨by decide,
   (C4_explicit_list ⟨fun _ => true, fun _ => true, fun _ => [], fun s => s⟩ (fun _ => none)
      ⟨some ("check"), false, false, false, [("nope")], [], none⟩ ⟨some ("a")⟩
      ⟨[⟨("a"), ("a/C"), Kind.Normal⟩], ("r")⟩ [(("a/C"), ("m"))] ⟨0, 0⟩
      (by decide) (by decide) (by decide)).1 ("nope") (by decide)⟩

/-- C5: with the workspace flag set, the selected set is exactly the
workspace packages, in metadata order, whose name is not excluded; every
exclude name matching no workspace package produces a non-fatal warning in
the run's events while selection still succeeds; excluding only names
absent from the workspace leaves the selected set the full package list. -/
theorem C5_workspace_exclude (world : World) (env : String → Option String) (args : Args) (cm : Manifest) (md : Metadata) (fs : FS) (pr : Progress)
    (hw : args.workspace = true)
    (ha : (args.subcommand.isSome || args.remove_dev_deps) = true) :
    ((selectPackages args cm md).2
        = Except.ok (md.packages.filter (fun p => !(args.exclude.contains p.name))))
    ∧ (∀ spec ∈ args.exclude, (∀ p ∈ md.packages, p.name ≠ spec) →
        Event.warn ((("excluded package(s) ") ++ spec ++ (" not found in workspace `") ++ md.workspace_root ++ ("`")))
          ∈ (exec_on_workspace world env args cm md ⟨fs, [], pr⟩).1.events)
    ∧ ((∀ spec ∈ args.exclude, ∀ p ∈ md.packages, p.name ≠ spec) →
        (selectPackages args cm md).2 = Except.ok md.packages) := by
  refine ⟨?_, ?_, ?_⟩
  · rw [selectPackages]
    simp [hw]
  · intro spec hmem hnone
    have hany : md.packages.any (fun p => p.name == spec) = false := by
      rw [List.any_eq_false]
      intro p hp
      simp [hnone p hp]
    have hwarn : Event.warn ((("excluded package(s) ") ++ spec ++ (" not found in workspace `") ++ md.workspace_root ++ ("`")))
        ∈ (selectPackages args cm md).1 := by
      rw [selectPackages]
      simp only [hw, if_true]
      refine List.mem_map.mpr ⟨spec, ?_, rfl⟩
      rw [List.mem_filter]
      exact ⟨hmem, by simp [hany]⟩
    rw [exec_on_workspace_run _ _ _ _ _ _ ha]
    dsimp only
    cases hsel : (selectPackages args cm md).2 with
    | error e =>
      simp only [hsel]
      simpa using hwarn
    | ok pkgs =>
      simp only [hsel]
      cases hfi : Package.from_iter pkgs fs with
      | error e =>
        simp only [hfi]
        simpa using hwarn
      | ok packages =>
        simp only [hfi]
        obtain ⟨tail, htail⟩ := runPackages_events world args
          (match args.color with
           | some color => ((ProcessBuilder.from_args (cargo_binary env) args).arg ("--color")).arg color
           | none => ProcessBuilder.from_args (cargo_binary env) args)
          (Restore.new args) packages
          ⟨fs, [] ++ (selectPackages args cm md).1, ⟨packages.length, 0⟩⟩
        rw [htail]
        exact List.mem_append_left _ (by simpa using hwarn)
  · intro hnone
    rw [selectPackages]
    simp only [hw, if_true]
    have hfix : md.packages.filter (fun p => !(args.exclude.contains p.name)) = md.packages := by
      rw [List.filter_eq_self]
      intro p hp
      have : args.exclude.contains p.name = false := by
        by_contra hc
        rw [Bool.not_eq_false] at hc
        obtain ⟨b, hb, hbeq⟩ := List.contains_iff_exists_mem_beq.mp hc
        exact hnone b hb p hp (by simpa using hbeq)
      rw [this]
      rfl
    rw [hfix]

/-- Witness for C5 at concrete inputs: one package, one unmatched exclude
name; selection succeeds with the full list and the warning is on the
run's event trace. -/
theorem C5_workspace_exclude_witness :
    ((⟨some ("check"), false, false, true, [], [("zzz")], none⟩ : Args).workspace = true)
    ∧ ((selectPackages ⟨some ("check"), false, false, true, [], [("zzz")], none⟩ ⟨some ("a")⟩
          ⟨[⟨("a"), ("a/C"), Kind.Normal⟩], ("r")⟩).2
        = Except.ok (([⟨("a"), ("a/C"), Kind.Normal⟩] : List MetaPackage).filter
            (fun p => !(([("zzz")] : List String).contains p.name))))
    ∧ Event.warn ((("excluded package(s) ") ++ ("zzz") ++ (" not found in workspace `") ++ ("r") ++ ("`")))
        ∈ (exec_on_workspace ⟨fun _ => true, fun _ => true, fun _ => [], fun s => s⟩ (fun _ => none)
            ⟨some ("check"), false, false, true, [], [("zzz")], none⟩ ⟨some ("a")⟩
            ⟨[⟨("a"), ("a/C"), Kind.Normal⟩], ("r")⟩ ⟨[(("a/C"), ("m"))], [], ⟨0, 0⟩⟩).1.events :=
  ⟨rfl,
   (C5_workspace_exclude ⟨fun _ => true, fun _ => true, fun _ => [], fun s => s⟩ (fun _ => none)
      ⟨some ("check"), false, false, true, [], [("zzz")], none⟩ ⟨some ("a")⟩
      ⟨[⟨("a"), ("a/C"), Kind.Normal⟩], ("r")⟩ [(("a/C"), ("m"))] ⟨0, 0⟩ rfl (by decide)).1,
   (C5_workspace_exclude ⟨fun _ => true, fun _ => true, fun _ => [], fun s => s⟩ (fun _ => none)
      ⟨some ("check"), false, false, true, [], [("zzz")], none⟩ ⟨some ("a")⟩
      ⟨[⟨("a"), ("a/C"), Kind.Normal⟩], ("r")⟩ [(("a/C"), ("m"))] ⟨0, 0⟩ rfl (by decide)).2.1
     ("zzz") (by decide) (by decide)⟩

/-- A find? by name, under distinct names, selects exactly the member with
that name. -/
theorem find_name_mem (l : List MetaPackage) (n : String) (hnd : (l.map MetaPackage.name).Nodup) (p : MetaPackage) :
    p ∈ (l.find? (fun q => q.name == n)).toList ↔ p ∈ l ∧ p.name = n := by
  constructor
  · intro h
    cases hf : l.find? (fun q => q.name == n) with
    | none =>
      rw [hf] at h
      cases h
    | some q =>
      rw [hf] at h
      simp at h
      subst h
      refine ⟨List.mem_of_find?_eq_some hf, ?_⟩
      have hq := List.find?_some hf
      simpa using hq
  · rintro ⟨hmem, hname⟩
    cases hf : l.find? (fun q => q.name == n) with
    | none =>
      exfalso
      have h := List.find?_eq_none.mp hf p hmem
      simp [hname] at h
    | some q =>
      have hqmem := List.mem_of_find?_eq_some hf
      have hqname : q.name = n := by
        have hq := List.find?_some hf
        simpa using hq
      have hpq : p = q :=
        List.inj_on_of_nodup_map hnd hmem hqmem (by rw [hname, hqname])
      subst hpq
      simp

/-- C6: with the workspace flag off and no explicit package list, a
virtual current manifest selects the whole workspace package list; a
non-virtual one selects the first workspace package carrying the current
package name — the empty set when no package has that name, and under
distinct workspace names exactly the single package with that name. -/
theorem C6_default_selection (args : Args) (cm : Manifest) (md : Metadata)
    (hw : args.workspace = false) (hp : args.package = []) :
    (cm.is_virtual = true → (selectPackages args cm md).2 = Except.ok md.packages)
    ∧ (∀ n, cm.packageName = some n →
        (selectPackages args cm md).2
            = Except.ok ((md.packages.find? (fun q => q.name == n)).toList)
        ∧ ((∀ p ∈ md.packages, p.name ≠ n) → (selectPackages args cm md).2 = Except.ok [])
        ∧ ((md.packages.map MetaPackage.name).Nodup →
            ∀ p, p ∈ (md.packages.find? (fun q => q.name == n)).toList ↔ p ∈ md.packages ∧ p.name = n)) := by
  constructor
  · intro hv
    rw [selectPackages]
    simp [hw, hp, hv]
  · intro n hn
    have hv : cm.is_virtual = false := by simp [Manifest.is_virtual, hn]
    have hpn : cm.package_name = n := by simp [Manifest.package_name, hn]
    refine ⟨?_, ?_, ?_⟩
    · rw [selectPackages]
      simp [hw, hp, hv, hpn]
    · intro hnone
      have hfind : md.packages.find? (fun q => q.name == n) = none := by
        rw [List.find?_eq_none]
        intro q hq
        simp [hnone q hq]
      rw [selectPackages]
      simp [hw, hp, hv, hpn, hfind]
    · intro hnd p
      exact find_name_mem md.packages n hnd p

/-- Witness for C6 at concrete inputs: a non-virtual current manifest
selects by its package name. -/
theorem C6_default_selection_witness :
    ((⟨some ("check"), false, false, false, [], [], none⟩ : Args).workspace = false)
    ∧ (selectPackages ⟨some ("check"), false, false, false, [], [], none⟩ ⟨some ("a")⟩
          ⟨[⟨("a"), ("a/C"), Kind.Normal⟩], ("r")⟩).2
        = Except.ok ((([⟨("a"), ("a/C"), Kind.Normal⟩] : List MetaPackage).find?
            (fun q => q.name == ("a"))).toList) :=
  ⟨rfl,
   ((C6_default_selection ⟨some ("check"), false, false, false, [], [], none⟩ ⟨some ("a")⟩
      ⟨[⟨("a"), ("a/C"), Kind.Normal⟩], ("r")⟩ rfl rfl).2 ("a") rfl).1⟩

/-- C7: a SkipAsPrivate package is reported with an informational message
naming it, runs no subprocess, mutates no manifest, leaves the Progress
counters untouched, succeeds, and the loop continues with the remaining
packages. -/
theorem C7_skip_private (world : World) (args : Args) (package : Package) (line : ProcessBuilder) (restore : Restore) (st : St) (rest : List Package)
    (hk : package.kind = Kind.SkipAsPrivate) :
    exec_on_package world args package line restore st
      = ({ st with events := st.events ++ [Event.info (("skipped running on private crate ") ++ package.name)] },
        RunResult.ok)
    ∧ (exec_on_package world args package line restore st).1.fs = st.fs
    ∧ (exec_on_package world args package line restore st).1.progress = st.progress
    ∧ (∀ cmd, Event.invoked cmd ∈ (exec_on_package world args package line restore st).1.events →
        Event.invoked cmd ∈ st.events)
    ∧ (∀ q, Event.mutated q ∈ (exec_on_package world args package line restore st).1.events →
        Event.mutated q ∈ st.events)
    ∧ runPackages world args line restore (package :: rest) st
        = runPackages world args line restore rest
            { st with events := st.events ++ [Event.info (("skipped running on private crate ") ++ package.name)] } := by
  have he := exec_on_package_skip world args package line restore st hk
  refine ⟨he, ?_, ?_, ?_, ?_, ?_⟩
  · rw [he]
  · rw [he]
  · intro cmd h
    rw [he] at h
    simpa using h
  · intro q h
    rw [he] at h
    simpa using h
  · rw [runPackages, he]

/-- Witness for C7 at a concrete private package. -/
theorem C7_skip_private_witness :
    ((⟨("p"), ("p/C"), ("m"), Kind.SkipAsPrivate⟩ : Package).kind = Kind.SkipAsPrivate)
    ∧ exec_on_package ⟨fun _ => true, fun _ => true, fun _ => [], fun s => s⟩
        ⟨some ("check"), false, false, false, [], [], none⟩
        ⟨("p"), ("p/C"), ("m"), Kind.SkipAsPrivate⟩ ⟨("cargo"), []⟩ ⟨false⟩ ⟨[], [], ⟨1, 0⟩⟩
      = (⟨[], [Event.info (("skipped running on private crate ") ++ ("p"))], ⟨1, 0⟩⟩,
        RunResult.ok) :=
  ⟨rfl,
   (C7_skip_private ⟨fun _ => true, fun _ => true, fun _ => [], fun s => s⟩
      ⟨some ("check"), false, false, false, [], [], none⟩
      ⟨("p"), ("p/C"), ("m"), Kind.SkipAsPrivate⟩ ⟨("cargo"), []⟩ ⟨false⟩ ⟨[], [], ⟨1, 0⟩⟩ [] rfl).1⟩

/-- C2: the loop over the selected sequence is fail-fast: once a prefix
has succeeded and the next package's step fails, the whole run stops in
exactly that state with that error — the remaining packages contribute
nothing — while SkipAsPrivate packages always return success and never
stop the iteration. -/
theorem C2_fail_fast (world : World) (args : Args) (line : ProcessBuilder) (restore : Restore) (l1 l2 : List Package) (p : Package) (st st1 st2 : St) (e : String)
    (h1 : runPackages world args line restore l1 st = (st1, RunResult.ok))
    (h2 : exec_on_package world args p line restore st1 = (st2, RunResult.err e)) :
    runPackages world args line restore (l1 ++ p :: l2) st = (st2, RunResult.err e)
    ∧ (∀ p' st', p'.kind = Kind.SkipAsPrivate →
        (exec_on_package world args p' line restore st').2 = RunResult.ok) := by
  constructor
  · rw [runPackages_append world args line restore l1 (p :: l2) st, h1]
    dsimp only
    rw [runPackages, h2]
  · intro p' st' hk
    rw [exec_on_package_skip world args p' line restore st' hk]

/-- Witness for C2 at concrete inputs: the failing package's error is the
run's result and the trailing package leaves no trace. -/
theorem C2_fail_fast_witness :
    (runPackages ⟨fun _ => true, fun _ => false, fun _ => [], fun s => s⟩
        ⟨some ("check"), false, false, false, [], [], none⟩ ⟨("cargo"), []⟩ ⟨false⟩ []
        ⟨[(("a/C"), ("m"))], [], ⟨1, 0⟩⟩
      = (⟨[(("a/C"), ("m"))], [], ⟨1, 0⟩⟩, RunResult.ok))
    ∧ (exec_on_package ⟨fun _ => true, fun _ => false, fun _ => [], fun s => s⟩
        ⟨some ("check"), false, false, false, [], [], none⟩
        ⟨("a"), ("a/C"), ("m"), Kind.Normal⟩ ⟨("cargo"), []⟩ ⟨false⟩
        ⟨[(("a/C"), ("m"))], [], ⟨1, 0⟩⟩
      = (⟨[(("a/C"), ("m"))], [Event.invoked [("cargo"), ("--manifest-path"), ("a/C")]], ⟨1, 1⟩⟩,
         RunResult.err (("command failed: ") ++ ("a"))))
    ∧ runPackages ⟨fun _ => true, fun _ => false, fun _ => [], fun s => s⟩
        ⟨some ("check"), false, false, false, [], [], none⟩ ⟨("cargo"), []⟩ ⟨false⟩
        ([] ++ ⟨("a"), ("a/C"), ("m"), Kind.Normal⟩ :: [⟨("b"), ("b/C"), ("m"), Kind.Normal⟩])
        ⟨[(("a/C"), ("m"))], [], ⟨1, 0⟩⟩
      = (⟨[(("a/C"), ("m"))], [Event.invoked [("cargo"), ("--manifest-path"), ("a/C")]], ⟨1, 1⟩⟩,
         RunResult.err (("command failed: ") ++ ("a"))) :=
  ⟨by decide, by decide,
   (C2_fail_fast ⟨fun _ => true, fun _ => false, fun _ => [], fun s => s⟩
      ⟨some ("check"), false, false, false, [], [], none⟩ ⟨("cargo"), []⟩ ⟨false⟩
      [] [⟨("b"), ("b/C"), ("m"), Kind.Normal⟩] ⟨("a"), ("a/C"), ("m"), Kind.Normal⟩
      ⟨[(("a/C"), ("m"))], [], ⟨1, 0⟩⟩ ⟨[(("a/C"), ("m"))], [], ⟨1, 0⟩⟩
      ⟨[(("a/C"), ("m"))], [Event.invoked [("cargo"), ("--manifest-path"), ("a/C")]], ⟨1, 1⟩⟩
      (("command failed: ") ++ ("a")) (by decide) (by decide)).1⟩

/-- C3: with suppression in effect, the guard is opened over the original
snapshot before the mutated write; when that write fails the step's error
names the manifest path, no subprocess invocation is added, the file still
reads as the original at release, and the whole loop aborts with that
error. -/
theorem C3_write_failure (world : World) (args : Args) (package : Package) (line : ProcessBuilder) (restore : Restore) (st : St) (rest : List Package)
    (hk : package.kind = Kind.Normal)
    (hs : (args.no_dev_deps || args.remove_dev_deps) = true)
    (hw : world.writeOk package.manifest_path = false)
    (hc : st.fs.read package.manifest_path = some package.manifest) :
    ((exec_on_package world args package line restore st).2
        = RunResult.err (("failed to update manifest file: ") ++ package.manifest_path))
    ∧ ((exec_on_package world args package line restore st).1.fs.read package.manifest_path
        = some package.manifest)
    ∧ (∀ cmd, Event.invoked cmd ∈ (exec_on_package world args package line restore st).1.events →
        Event.invoked cmd ∈ st.events)
    ∧ (∃ tail, (exec_on_package world args package line restore st).1.events
        = st.events ++ Event.guardOpened package.manifest_path :: tail)
    ∧ ((runPackages world args line restore (package :: rest) st).2
        = RunResult.err (("failed to update manifest file: ") ++ package.manifest_path)) := by
  have he := exec_on_package_normal world args package line restore st hk
  have hnd := no_dev_deps_wfail world args package
    (((line.append_features_from_args world package.name).arg ("--manifest-path")).arg package.manifest_path)
    restore st hs hw
  have hstep := he.trans hnd
  refine ⟨?_, ?_, ?_, ?_, ?_⟩
  · rw [hstep]
  · rw [hstep]
    cases hr : restore.needs_restore
    · simp [Handle.restore, Restore.set_manifest, hr, hc]
    · simp [Handle.restore, Restore.set_manifest, hr, FS.read_write]
  · intro cmd h
    rw [hstep] at h
    cases hr : restore.needs_restore <;>
      simp [Handle.restore, Restore.set_manifest, hr] at h <;>
      exact h
  · rw [hstep]
    cases hr : restore.needs_restore
    · exact ⟨[], by simp [Handle.restore, Restore.set_manifest, hr]⟩
    · exact ⟨[Event.restored package.manifest_path],
        by simp [Handle.restore, Restore.set_manifest, hr]⟩
  · rw [runPackages, hstep]

/-- Witness for C3 at concrete inputs: the write to the manifest path
fails and the step reports exactly that path. -/
theorem C3_write_failure_witness :
    ((⟨("a"), ("a/C"), ("m"), Kind.Normal⟩ : Package).kind = Kind.Normal)
    ∧ (((⟨some ("check"), false, true, false, [], [], none⟩ : Args).no_dev_deps
        || (⟨some ("check"), false, true, false, [], [], none⟩ : Args).remove_dev_deps) = true)
    ∧ ((⟨fun _ => false, fun _ => true, fun _ => [], fun s => s⟩ : World).writeOk ("a/C") = false)
    ∧ ((⟨[(("a/C"), ("m"))], [], ⟨1, 0⟩⟩ : St).fs.read ("a/C") = some ("m"))
    ∧ ((exec_on_package ⟨fun _ => false, fun _ => true, fun _ => [], fun s => s⟩
        ⟨some ("check"), false, true, false, [], [], none⟩
        ⟨("a"), ("a/C"), ("m"), Kind.Normal⟩ ⟨("cargo"), []⟩ ⟨true⟩
        ⟨[(("a/C"), ("m"))], [], ⟨1, 0⟩⟩).2
      = RunResult.err (("failed to update manifest file: ") ++ ("a/C"))) :=
  ⟨rfl, by decide, by decide, by decide,
   (C3_write_failure ⟨fun _ => false, fun _ => true, fun _ => [], fun s => s⟩
      ⟨some ("check"), false, true, false, [], [], none⟩
      ⟨("a"), ("a/C"), ("m"), Kind.Normal⟩ ⟨("cargo"), []⟩ ⟨true⟩
      ⟨[(("a/C"), ("m"))], [], ⟨1, 0⟩⟩ [] rfl (by decide) (by decide) (by decide)).1⟩

/-- Specialization of the fs preservation to a run started on a trace of
warnings. -/
theorem runPackages_fs_eq (world : World) (args : Args) (line : ProcessBuilder) (restore : Restore)
    (hnd : args.no_dev_deps = true) (hr : restore.needs_restore = true)
    (packages : List Package) (fs : FS) (warns : List Event) (pz : Progress)
    (hall : ∀ p ∈ packages, fs.read p.manifest_path = some p.manifest) :
    ∀ q, (runPackages world args line restore packages ⟨fs, warns, pz⟩).1.fs.read q = fs.read q :=
  fun q => runPackages_fs world args line restore hnd hr packages ⟨fs, warns, pz⟩ hall q

/-- Specialization of the guard accounting to a run started on a trace
holding no guard bookkeeping. -/
theorem runPackages_guard_eq (world : World) (args : Args) (line : ProcessBuilder) (restore : Restore)
    (hnd : args.no_dev_deps = true) (hr : restore.needs_restore = true)
    (packages : List Package) (fs : FS) (warns : List Event) (pz : Progress) (q : String)
    (hz1 : countEv warns (Event.restored q) = 0)
    (hz2 : countEv warns (Event.guardOpened q) = 0) :
    countEv (runPackages world args line restore packages ⟨fs, warns, pz⟩).1.events (Event.restored q)
      = countEv (runPackages world args line restore packages ⟨fs, warns, pz⟩).1.events (Event.guardOpened q) := by
  have hg := runPackages_guard world args line restore hnd hr packages ⟨fs, warns, pz⟩ q
  dsimp only at hg
  omega

/-- Specialization of the index accounting to a run started at index zero
on a trace with no invocations. -/
theorem runPackages_count_eq (world : World) (args : Args) (line : ProcessBuilder) (restore : Restore)
    (packages : List Package) (fs : FS) (warns : List Event) (t : Nat)
    (hwz : countInvoked warns = 0) :
    (runPackages world args line restore packages ⟨fs, warns, ⟨t, 0⟩⟩).1.progress.count
      = countInvoked (runPackages world args line restore packages ⟨fs, warns, ⟨t, 0⟩⟩).1.events := by
  have hc := runPackages_count world args line restore packages ⟨fs, warns, ⟨t, 0⟩⟩
  dsimp only at hc
  omega

/-- C1: with the restoring dev-dependency suppression flag set, a whole
run leaves every path of the disk reading exactly what it read before the
run — whether each invocation succeeds or fails, a mutated-content write
fails, or a later package aborts the run — and the trace records exactly
one release write-back per guard opening at every path. -/
theorem C1_manifest_restored (world : World) (env : String → Option String) (args : Args) (cm : Manifest) (md : Metadata) (fs : FS) (pr : Progress)
    (h : args.no_dev_deps = true) :
    (∀ q, (exec_on_workspace world env args cm md ⟨fs, [], pr⟩).1.fs.read q = fs.read q)
    ∧ (∀ q, countEv (exec_on_workspace world env args cm md ⟨fs, [], pr⟩).1.events (Event.restored q)
        = countEv (exec_on_workspace world env args cm md ⟨fs, [], pr⟩).1.events (Event.guardOpened q)) := by
  by_cases ha : (args.subcommand.isSome || args.remove_dev_deps) = true
  · rw [exec_on_workspace_run _ _ _ _ _ _ ha]
    dsimp only
    cases hsel : (selectPackages args cm md).2 with
    | error e =>
      simp only [hsel]
      constructor
      · intro q
        trivial
      · intro q
        obtain ⟨z1, z2, z3⟩ := selectPackages_countEv args cm md q
        rw [List.nil_append, z1, z2]
    | ok pkgs =>
      simp only [hsel]
      cases hfi : Package.from_iter pkgs fs with
      | error e =>
        simp only [hfi]
        constructor
        · intro q
          trivial
        · intro q
          obtain ⟨z1, z2, z3⟩ := selectPackages_countEv args cm md q
          rw [List.nil_append, z1, z2]
      | ok packages =>
        simp only [hfi]
        have hr : (Restore.new args).needs_restore = true := by
          simpa [Restore.new] using h
        have hall := from_iter_read pkgs fs packages hfi
        constructor
        · intro q
          exact runPackages_fs_eq world args _ (Restore.new args) h hr packages fs
            ([] ++ (selectPackages args cm md).1) ⟨packages.length, 0⟩
            (fun p hp => hall p hp) q
        · intro q
          obtain ⟨z1, z2, z3⟩ := selectPackages_countEv args cm md q
          exact runPackages_guard_eq world args _ (Restore.new args) h hr packages fs
            ([] ++ (selectPackages args cm md).1) ⟨packages.length, 0⟩ q
            (by simpa [countEv_append, countEv] using z1)
            (by simpa [countEv_append, countEv] using z2)
  · rw [Bool.not_eq_true] at ha
    rw [exec_on_workspace]
    simp only [ha, Bool.false_eq_true, if_false]
    constructor
    · intro q
      trivial
    · intro q
      rfl

/-- Witness for C1 at a concrete run with the suppression flag on. -/
theorem C1_manifest_restored_witness :
    ((⟨some ("check"), false, true, false, [], [], none⟩ : Args).no_dev_deps = true)
    ∧ ((∀ q, (exec_on_workspace ⟨fun _ => true, fun _ => true, fun _ => [], fun s => s⟩ (fun _ => none)
          ⟨some ("check"), false, true, false, [], [], none⟩ ⟨some ("a")⟩
          ⟨[⟨("a"), ("a/C"), Kind.Normal⟩], ("r")⟩ ⟨[(("a/C"), ("m"))], [], ⟨0, 0⟩⟩).1.fs.read q
        = FS.read [(("a/C"), ("m"))] q)
      ∧ (∀ q, countEv (exec_on_workspace ⟨fun _ => true, fun _ => true, fun _ => [], fun s => s⟩ (fun _ => none)
          ⟨some ("check"), false, true, false, [], [], none⟩ ⟨some ("a")⟩
          ⟨[⟨("a"), ("a/C"), Kind.Normal⟩], ("r")⟩ ⟨[(("a/C"), ("m"))], [], ⟨0, 0⟩⟩).1.events (Event.restored q)
        = countEv (exec_on_workspace ⟨fun _ => true, fun _ => true, fun _ => [], fun s => s⟩ (fun _ => none)
          ⟨some ("check"), false, true, false, [], [], none⟩ ⟨some ("a")⟩
          ⟨[⟨("a"), ("a/C"), Kind.Normal⟩], ("r")⟩ ⟨[(("a/C"), ("m"))], [], ⟨0, 0⟩⟩).1.events (Event.guardOpened q))) :=
  ⟨rfl,
   C1_manifest_restored ⟨fun _ => true, fun _ => true, fun _ => [], fun s => s⟩ (fun _ => none)
      ⟨some ("check"), false, true, false, [], [], none⟩ ⟨some ("a")⟩
      ⟨[⟨("a"), ("a/C"), Kind.Normal⟩], ("r")⟩ [(("a/C"), ("m"))] ⟨0, 0⟩ rfl⟩

/-- C8 (amended): once the package set is constructed the Progress total
is fixed at the selected set's length and never changes during the loop,
and the current index advances by exactly one per subprocess invocation —
so a SkipAsPrivate package, which runs no subprocess, leaves the index
unchanged. -/
theorem C8_progress_amended (world : World) (env : String → Option String) (args : Args) (cm : Manifest) (md : Metadata) (fs : FS) (pr : Progress) (pkgs : List MetaPackage) (packages : List Package)
    (ha : (args.subcommand.isSome || args.remove_dev_deps) = true)
    (hsel : (selectPackages args cm md).2 = Except.ok pkgs)
    (hfi : Package.from_iter pkgs fs = Except.ok packages) :
    (exec_on_workspace world env args cm md ⟨fs, [], pr⟩).1.progress.total = packages.length
    ∧ (exec_on_workspace world env args cm md ⟨fs, [], pr⟩).1.progress.count
        = countInvoked (exec_on_workspace world env args cm md ⟨fs, [], pr⟩).1.events := by
  rw [exec_on_workspace_run _ _ _ _ _ _ ha]
  dsimp only
  simp only [hsel]
  simp only [hfi]
  constructor
  · exact (runPackages_total world args _ (Restore.new args) packages _).trans rfl
  · obtain ⟨z1, z2, z3⟩ := selectPackages_countEv args cm md ("")
    exact runPackages_count_eq world args _ (Restore.new args) packages fs
      ([] ++ (selectPackages args cm md).1) packages.length
      (by simpa [countInvoked_append, countInvoked] using z3)

/-- Counterexample to C8 as stated: one selected SkipAsPrivate package is
visited and the run succeeds with total one, yet the final index is zero,
not one — the index does not advance for skipped packages. -/
theorem C8_progress_cex :
    (exec_on_workspace ⟨fun _ => true, fun _ => true, fun _ => [], fun s => s⟩ (fun _ => none)
        ⟨some ("check"), false, false, false, [], [], none⟩ ⟨some ("a")⟩
        ⟨[⟨("a"), ("a/C"), Kind.SkipAsPrivate⟩], ("r")⟩ ⟨[(("a/C"), ("m"))], [], ⟨7, 7⟩⟩
      = (⟨[(("a/C"), ("m"))], [Event.info (("skipped running on private crate ") ++ ("a"))], ⟨1, 0⟩⟩,
         RunResult.ok))
    ∧ ¬((exec_on_workspace ⟨fun _ => true, fun _ => true, fun _ => [], fun s => s⟩ (fun _ => none)
        ⟨some ("check"), false, false, false, [], [], none⟩ ⟨some ("a")⟩
        ⟨[⟨("a"), ("a/C"), Kind.SkipAsPrivate⟩], ("r")⟩ ⟨[(("a/C"), ("m"))], [], ⟨7, 7⟩⟩).1.progress.count
      = 1) := by
  constructor
  · decide
  · decide

/-- Witness for the amended C8 at a concrete run with one executed
package. -/
theorem C8_progress_amended_witness :
    ((selectPackages ⟨some ("check"), false, false, false, [], [], none⟩ ⟨some ("a")⟩
        ⟨[⟨("a"), ("a/C"), Kind.Normal⟩], ("r")⟩).2
      = Except.ok [⟨("a"), ("a/C"), Kind.Normal⟩])
    ∧ (Package.from_iter [⟨("a"), ("a/C"), Kind.Normal⟩] [(("a/C"), ("m"))]
      = Except.ok [⟨("a"), ("a/C"), ("m"), Kind.Normal⟩])
    ∧ ((exec_on_workspace ⟨fun _ => true, fun _ => true, fun _ => [], fun s => s⟩ (fun _ => none)
        ⟨some ("check"), false, false, false, [], [], none⟩ ⟨some ("a")⟩
        ⟨[⟨("a"), ("a/C"), Kind.Normal⟩], ("r")⟩ ⟨[(("a/C"), ("m"))], [], ⟨0, 0⟩⟩).1.progress.total
      = ([⟨("a"), ("a/C"), ("m"), Kind.Normal⟩] : List Package).length)
    ∧ ((exec_on_workspace ⟨fun _ => true, fun _ => true, fun _ => [], fun s => s⟩ (fun _ => none)
        ⟨some ("check"), false, false, false, [], [], none⟩ ⟨some ("a")⟩
        ⟨[⟨("a"), ("a/C"), Kind.Normal⟩], ("r")⟩ ⟨[(("a/C"), ("m"))], [], ⟨0, 0⟩⟩).1.progress.count
      = countInvoked (exec_on_workspace ⟨fun _ => true, fun _ => true, fun _ => [], fun s => s⟩ (fun _ => none)
        ⟨some ("check"), false, false, false, [], [], none⟩ ⟨some ("a")⟩
        ⟨[⟨("a"), ("a/C"), Kind.Normal⟩], ("r")⟩ ⟨[(("a/C"), ("m"))], [], ⟨0, 0⟩⟩).1.events) :=
  ⟨rfl, rfl,
   (C8_progress_amended ⟨fun _ => true, fun _ => true, fun _ => [], fun s => s⟩ (fun _ => none)
      ⟨some ("check"), false, false, false, [], [], none⟩ ⟨some ("a")⟩
      ⟨[⟨("a"), ("a/C"), Kind.Normal⟩], ("r")⟩ [(("a/C"), ("m"))] ⟨0, 0⟩
      [⟨("a"), ("a/C"), Kind.Normal⟩] [⟨("a"), ("a/C"), ("m"), Kind.Normal⟩]
      (by decide) rfl rfl).1,
   (C8_progress_amended ⟨fun _ => true, fun _ => true, fun _ => [], fun s => s⟩ (fun _ => none)
      ⟨some ("check"), false, false, false, [], [], none⟩ ⟨some ("a")⟩
      ⟨[⟨("a"), ("a/C"), Kind.Normal⟩], ("r")⟩ [(("a/C"), ("m"))] ⟨0, 0⟩
      [⟨("a"), ("a/C"), Kind.Normal⟩] [⟨("a"), ("a/C"), ("m"), Kind.Normal⟩]
      (by decide) rfl rfl).2⟩
